import Mathlib

/-!
Verification of the twitch-alerts liveness-change detection and
notification engine.

The repository holds two near-identical variants of the same program:
`src/twitch_alerts/__main__.py` (boolean probe results, namespace `Main`
below) and `src/twitch_alerts/_twitch_alerts.py` (enriched `Channel`
records, namespace `TA` below).  Network I/O is modelled by passing each
HTTP response in as data; the file system is a map from path to optional
file content; `json.dump` / `json.load` on the `dict[str, bool]` state
fragment are modelled by an executable serializer and parser pair that
follows CPython's `json` module (ensure-ascii escaping, `", "` and
`": "` separators, strict strings, whitespace skipping).
-/

namespace TwitchAlerts

/-- Exceptions raised by the modelled code paths: `ValueError` (including
`json.JSONDecodeError`, which subclasses it) and `KeyError`. -/
inductive PyError where
  | valueError
  | keyError
deriving DecidableEq

/-- A state map is the Python `dict[str, bool]` from channel name to
liveness, modelled as an association list in insertion order. -/
abbrev Snapshot := List (String × Bool)

/-- The on-disk file system: path to file content, `none` when absent. -/
abbrev FS := String → Option String

/-! ### JSON serialization of `dict[str, bool]` (CPython `json.dump`) -/

/-- Lowercase hex digit, as emitted by CPython's json escapes. -/
def hexDigit (n : Nat) : Char :=
  if n < 10 then Char.ofNat (48 + n) else Char.ofNat (87 + n)

/-- Four lowercase hex digits of `n < 0x10000`, most significant first. -/
def hex4 (n : Nat) : List Char :=
  [hexDigit (n / 4096 % 16), hexDigit (n / 256 % 16), hexDigit (n / 16 % 16), hexDigit (n % 16)]

/-- CPython `json.dumps` escaping of one character with the default
`ensure_ascii=True`: printable ASCII other than quote and backslash is
literal, the two-character short escapes cover the usual controls, all
other controls and all non-ASCII become `\uXXXX` (a surrogate pair for
astral code points). -/
def escapeChar (c : Char) : List Char :=
  if c = '\x22' then ['\x5c', '\x22']
  else if c = '\x5c' then ['\x5c', '\x5c']
  else if c = '\x08' then ['\x5c', 'b']
  else if c = '\x0c' then ['\x5c', 'f']
  else if c = '\n' then ['\x5c', 'n']
  else if c = '\r' then ['\x5c', 'r']
  else if c = '\t' then ['\x5c', 't']
  else if c.toNat < 32 then '\x5c' :: 'u' :: hex4 c.toNat
  else if c.toNat < 127 then [c]
  else if c.toNat < 65536 then '\x5c' :: 'u' :: hex4 c.toNat
  else '\x5c' :: 'u' :: hex4 (55296 + (c.toNat - 65536) / 1024) ++
       '\x5c' :: 'u' :: hex4 (56320 + (c.toNat - 65536) % 1024)

def escapeList : List Char → List Char
  | [] => []
  | c :: cs => escapeChar c ++ escapeList cs

/-- A JSON string literal: quote, escaped characters, quote. -/
def dumpString (s : String) : List Char :=
  '\x22' :: (escapeList s.data ++ ['\x22'])

def dumpBool (b : Bool) : List Char :=
  if b then ['t', 'r', 'u', 'e'] else ['f', 'a', 'l', 's', 'e']

/-- Members of the serialized object, joined by `json.dump`'s default
item separator `", "` with key separator `": "`. -/
def dumpEntries : Snapshot → List Char
  | [] => []
  | [(k, v)] => dumpString k ++ ':' :: ' ' :: dumpBool v
  | (k, v) :: rest => dumpString k ++ ':' :: ' ' :: (dumpBool v ++ ',' :: ' ' :: dumpEntries rest)

def dumpChars (st : Snapshot) : List Char :=
  '\x7b' :: (dumpEntries st ++ ['\x7d'])

/-- `json.dump(state, outfile)` for a `dict[str, bool]`. -/
def dumps (st : Snapshot) : String := String.mk (dumpChars st)

/-! ### JSON parsing of the same fragment (CPython `json.load`) -/

def isWs (c : Char) : Bool := c = ' ' || c = '\t' || c = '\n' || c = '\r'

def skipWs : List Char → List Char
  | [] => []
  | c :: cs => if isWs c then skipWs cs else c :: cs

def hexVal (c : Char) : Option Nat :=
  if 48 ≤ c.toNat ∧ c.toNat ≤ 57 then some (c.toNat - 48)
  else if 97 ≤ c.toNat ∧ c.toNat ≤ 102 then some (c.toNat - 87)
  else if 65 ≤ c.toNat ∧ c.toNat ≤ 70 then some (c.toNat - 55)
  else none

def parseHex4 : List Char → Option (Nat × List Char)
  | c1 :: c2 :: c3 :: c4 :: rest =>
    match hexVal c1, hexVal c2, hexVal c3, hexVal c4 with
    | some d1, some d2, some d3, some d4 => some (4096 * d1 + 256 * d2 + 16 * d3 + d4, rest)
    | _, _, _, _ => none
  | _ => none

/-- Combination of a parsed high surrogate with a parsed low surrogate. -/
def finishLowSurrogate (hi : Nat) (res : Option (Nat × List Char)) : Option (Char × List Char) :=
  match res with
  | some (m, rest4) =>
    if 56320 ≤ m ∧ m < 57344 then
      some (Char.ofNat (65536 + (hi - 55296) * 1024 + (m - 56320)), rest4)
    else none
  | none => none

/-- After a high surrogate `\uXXXX`, a second `\uXXXX` low surrogate must
follow. -/
def parseLowSurrogate (hi : Nat) (rest2 : List Char) : Option (Char × List Char) :=
  match rest2 with
  | e1 :: e2 :: rest3 =>
    if e1 = '\x5c' ∧ e2 = 'u' then finishLowSurrogate hi (parseHex4 rest3) else none
  | _ => none

def parseUEscapeAux : Option (Nat × List Char) → Option (Char × List Char)
  | none => none
  | some (n, rest2) =>
    if 55296 ≤ n ∧ n < 56320 then parseLowSurrogate n rest2
    else if 56320 ≤ n ∧ n < 57344 then none
    else some (Char.ofNat n, rest2)

/-- A `\uXXXX` escape (the backslash and the `u` have already been
consumed).  A high surrogate must be followed by a `\uXXXX` low
surrogate forming one code point, as every Lean `Char` is a scalar
value. -/
def parseUEscape (rest : List Char) : Option (Char × List Char) :=
  parseUEscapeAux (parseHex4 rest)

/-- One backslash escape inside a JSON string (the backslash has already
been consumed). -/
def parseEscape : List Char → Option (Char × List Char)
  | [] => none
  | c :: rest =>
    if c = '\x22' then some ('\x22', rest)
    else if c = '\x5c' then some ('\x5c', rest)
    else if c = '/' then some ('/', rest)
    else if c = 'b' then some ('\x08', rest)
    else if c = 'f' then some ('\x0c', rest)
    else if c = 'n' then some ('\n', rest)
    else if c = 'r' then some ('\r', rest)
    else if c = 't' then some ('\t', rest)
    else if c = 'u' then parseUEscape rest
    else none

/-- Characters of a JSON string up to the closing quote.  Unescaped
control characters are rejected (CPython's strict mode).  Fuel bounds the
recursion; one unit is spent per produced character. -/
def parseStrChars : Nat → List Char → Option (List Char × List Char)
  | 0, _ => none
  | _ + 1, [] => none
  | fuel + 1, c :: rest =>
    if c = '\x22' then some ([], rest)
    else if c = '\x5c' then
      match parseEscape rest with
      | none => none
      | some (d, rest2) => (parseStrChars fuel rest2).map (fun p => (d :: p.1, p.2))
    else if 32 ≤ c.toNat then
      (parseStrChars fuel rest).map (fun p => (c :: p.1, p.2))
    else none

/-- A JSON string literal.  The fuel passed to `parseStrChars` is the
remaining input length, which always suffices. -/
def parseString (cs : List Char) : Option (String × List Char) :=
  match cs with
  | [] => none
  | c :: rest =>
    if c = '\x22' then (parseStrChars (rest.length + 1) rest).map (fun p => (String.mk p.1, p.2))
    else none

def parseBool : List Char → Option (Bool × List Char)
  | [] => none
  | c :: rest =>
    if c = 't' then
      match rest with
      | c2 :: c3 :: c4 :: rest2 =>
        if c2 = 'r' ∧ c3 = 'u' ∧ c4 = 'e' then some (true, rest2) else none
      | _ => none
    else if c = 'f' then
      match rest with
      | c2 :: c3 :: c4 :: c5 :: rest2 =>
        if c2 = 'a' ∧ c3 = 'l' ∧ c4 = 's' ∧ c5 = 'e' then some (false, rest2) else none
      | _ => none
    else none

/-- The non-empty member list of the object: `"key": bool` pairs
separated by commas, ended by the closing brace.  Fuel bounds the number
of members. -/
def parseMembers : Nat → List Char → Option (Snapshot × List Char)
  | 0, _ => none
  | fuel + 1, cs =>
    match parseString cs with
    | none => none
    | some (k, r1) =>
      match skipWs r1 with
      | [] => none
      | c :: r3 =>
        if c = ':' then
          match parseBool (skipWs r3) with
          | none => none
          | some (v, r4) =>
            match skipWs r4 with
            | [] => none
            | c2 :: r6 =>
              if c2 = ',' then
                match parseMembers fuel (skipWs r6) with
                | none => none
                | some (entries, r7) => some ((k, v) :: entries, r7)
              else if c2 = '\x7d' then some ([(k, v)], r6)
              else none
        else none

def parseObj (fuel : Nat) (cs : List Char) : Option (Snapshot × List Char) :=
  match cs with
  | [] => none
  | c :: rest =>
    if c = '\x7b' then
      match skipWs rest with
      | [] => none
      | c2 :: r2 => if c2 = '\x7d' then some ([], r2) else parseMembers fuel (c2 :: r2)
    else none

/-- `json.load` restricted to the `dict[str, bool]` fragment this program
stores; any other input raises `json.JSONDecodeError`, a subclass of
`ValueError`. -/
def loads (s : String) : Except PyError Snapshot :=
  match parseObj (s.data.length + 1) (skipWs s.data) with
  | none => .error .valueError
  | some (entries, rest) => if skipWs rest = [] then .ok entries else .error .valueError

deriving instance DecidableEq for Except

/-! ### State store: `_load_state` / `_save_state` -/

def STATE_FILE : String := "temp_twitch-alerts-state.json"

def SCAN_FREQUENCY_SECONDS : Int := 300

/-- `_load_state`: return `{}` when the file does not exist, otherwise
`json.load` the content (which raises on unreadable content, propagating
to the caller). -/
def _load_state (fs : FS) (state_file : String) : Except PyError Snapshot :=
  match fs state_file with
  | none => .ok []
  | some content => loads content

/-- `_save_state`: `open(state_file, "w")` followed by `json.dump`; the
resulting file system after the write completes. -/
def _save_state (state : Snapshot) (fs : FS) (state_file : String) : FS :=
  fun p => if p = state_file then some (dumps state) else fs p

/-- The observable contents of the state file while `_save_state` runs:
`open(.., "w")` first truncates the file to empty, then the serialized
bytes are written left to right.  Index `n` holds the content after `n`
characters have been written. -/
def saveWriteStates (state : Snapshot) : List (List Char) :=
  (List.range ((dumpChars state).length + 1)).map (fun n => (dumpChars state).take n)

/-! ### Python `dict` operations -/

/-- Key lookup in the insertion-ordered association-list model of a
Python `dict`. -/
def dictLookup {β : Type} : List (String × β) → String → Option β
  | [], _ => none
  | (k0, v0) :: rest, k => if k0 = k then some v0 else dictLookup rest k

/-- `d.get(k, default)`. -/
def dictGet {β : Type} (d : List (String × β)) (k : String) (dflt : β) : β :=
  (dictLookup d k).getD dflt

/-- `d[k] = v`: replace in place when the key is present, else append. -/
def dictSet {β : Type} : List (String × β) → String → β → List (String × β)
  | [], k, v => [(k, v)]
  | (k0, v0) :: rest, k, v =>
    if k0 = k then (k0, v) :: rest else (k0, v0) :: dictSet rest k v

/-! ### Change detector: `_isolate_newly_active` (identical in both
variants of the program) -/

/-- The `for channel_name, state in current_state.items()` loop body,
accumulating the `new_actives` set. -/
def isolateLoop (previous_state : Snapshot) : Snapshot → Finset String → Finset String
  | [], acc => acc
  | (channel_name, state) :: rest, acc =>
    isolateLoop previous_state rest
      (if state = true ∧ dictGet previous_state channel_name false = false then
        insert channel_name acc
      else acc)

/-- `_isolate_newly_active(previous_state, current_state)`: the frozenset
of channels that are live now but were not live (or absent) before. -/
def _isolate_newly_active (previous_state current_state : Snapshot) : Finset String :=
  isolateLoop previous_state current_state ∅

/-! ### HTTP responses, credentials -/

/-- One element of the `data` list of a streams response.  Fields the
code accesses; `none` models an absent key (Python `KeyError` on `[...]`
access, `None` from `.get`). -/
structure StreamData where
  user_login : Option String
  title : Option String
  game_name : Option String
  thumbnail_url : Option String
  type : Option String
deriving DecidableEq

/-- The body of a streams response: either unparseable JSON
(`response.json()` raises `ValueError`) or a parsed object whose `data`
key is absent (`none`, a `KeyError` on access) or holds a list. -/
inductive Body where
  | malformed
  | obj (data : Option (List StreamData))
deriving DecidableEq

/-- An HTTP response to a streams probe, as observed by the code. -/
structure Response where
  is_success : Bool
  body : Body
deriving DecidableEq

/-- The `Auth` dataclass. -/
structure Auth where
  access_token : String
  expires_at : Int
  client_id : String
deriving DecidableEq

/-- `Auth.expired`: `time.time() >= self.expires_at`, with the current
time passed explicitly. -/
def Auth.expired (a : Auth) (now : Int) : Bool := now ≥ a.expires_at

/-- An HTTP response to the token exchange. -/
structure TokenResponse where
  is_success : Bool
  access_token : String
  expires_in : Int
deriving DecidableEq

/-- `get_bearer_token`: `None` on a non-success response, else an `Auth`
expiring `expires_in` seconds from now. -/
def get_bearer_token (tr : TokenResponse) (now : Int) (client_id : String) : Option Auth :=
  if tr.is_success = false then none
  else some { access_token := tr.access_token, expires_at := now + tr.expires_in,
              client_id := client_id }

/-! ### Notification sinks (identical control flow in both variants) -/

/-- An HTTP response from a notification sink. -/
structure SinkResponse where
  is_success : Bool
  status_code : Nat
deriving DecidableEq

/-- What a sink invocation logged. -/
inductive SinkEvent where
  | skippedNoTarget
  | sent
  | failed (status : Nat)
deriving DecidableEq

/-- Outcome of one sink invocation: the number of outbound HTTP requests
it performed and the log line it produced.  No exception escapes. -/
structure SinkResult where
  requests : Nat
  event : SinkEvent
deriving DecidableEq

/-- `send_discord_webhook`: no-op when the webhook URL is empty,
otherwise one POST; a non-success response is only logged. -/
def send_discord_webhook (channel_names : List String) (webhook_url : String)
    (resp : SinkResponse) : SinkResult :=
  if webhook_url = "" then { requests := 0, event := .skippedNoTarget }
  else if resp.is_success then { requests := 1, event := .sent }
  else { requests := 1, event := .failed resp.status_code }

/-- `send_pagerduty_alert`: no-op when the integration key is empty,
otherwise one POST; a non-success response is only logged. -/
def send_pagerduty_alert (channel_names : List String) (integration_key : String)
    (resp : SinkResponse) : SinkResult :=
  if integration_key = "" then { requests := 0, event := .skippedNoTarget }
  else if resp.is_success then { requests := 1, event := .sent }
  else { requests := 1, event := .failed resp.status_code }

/-- The `Config` dataclass. -/
structure Config where
  twitch_client_id : String
  twitch_client_secret : String
  twitch_channel_names : Finset String
  discord_webhook_url : String
  pagerduty_key : String

/-- `sorted(config.twitch_channel_names)`. -/
def sortedChannels (cfg : Config) : List String :=
  cfg.twitch_channel_names.sort (· ≤ ·)

namespace Main

/-! ### The boolean variant, `src/twitch_alerts/__main__.py` -/

/-- `_is_stream_live(channel_name, auth)` applied to the HTTP response it
receives: `False` on a non-success response; otherwise inspect
`response.json()["data"]` — raising `ValueError` on an unparseable body
and `KeyError` on a missing `data` key — and report live iff the list is
non-empty and its first element's `.get("type")` equals `"live"`. -/
def _is_stream_live (r : Response) : Except PyError Bool :=
  if r.is_success = false then .ok false
  else
    match r.body with
    | .malformed => .error .valueError
    | .obj none => .error .keyError
    | .obj (some []) => .ok false
    | .obj (some (d :: _)) => .ok (d.type == some "live")

/-- The `for channel in channels` loop of `isolate_who_went_live`,
building `current_state`; an exception from `_is_stream_live` propagates
(there is no handler in this variant). -/
def probeAll (probe : String → Response) : List String → Snapshot → Except PyError Snapshot
  | [], current_state => .ok current_state
  | channel :: rest, current_state =>
    match _is_stream_live (probe channel) with
    | .error e => .error e
    | .ok b => probeAll probe rest (dictSet current_state channel b)

/-- `isolate_who_went_live(auth, state_file, channels)`: load the previous
state, probe every channel, diff, save the new state and return the newly
live channel names.  The network is passed in as `probe`; the returned
file system reflects the `_save_state` call. -/
def isolate_who_went_live (fs : FS) (probe : String → Response) (state_file : String)
    (channels : List String) : Except PyError (Finset String × FS) :=
  match _load_state fs state_file with
  | .error e => .error e
  | .ok previous_state =>
    match probeAll probe channels [] with
    | .error e => .error e
    | .ok current_state =>
      .ok (_isolate_newly_active previous_state current_state,
           _save_state current_state fs state_file)

/-- The credential check at the top of a scan in `_run`
(`if auth is None or auth.expired: auth = get_bearer_token(...)`).
The second component counts token-exchange network calls. -/
def ensureAuth (auth : Option Auth) (tr : TokenResponse) (now : Int) (client_id : String) :
    Option Auth × Nat :=
  let needNew := match auth with | none => true | some a => a.expired now
  if needNew then (get_bearer_token tr now client_id, 1) else (auth, 0)

/-- The environment a run observes: the token-exchange response, the
probe responses, one response per sink, the clock sampled once per loop
iteration, and the initial file system. -/
structure RunEnv where
  tokenResp : TokenResponse
  probe : String → Response
  discordResp : SinkResponse
  pdResp : SinkResponse
  now : Nat → Int
  fs0 : FS

/-- The mutable state of `_run`'s while loop, plus a write-only trace of
sink invocations for observation. -/
structure LoopState where
  auth : Option Auth
  next_scan_at : Int
  new_channels : Finset String
  fs : FS
  trace : List (SinkResult × SinkResult)
  iter : Nat

/-- How a run ends: `SystemExit` raised, an uncaught exception, a normal
return (single-shot), or still looping when the fuel runs out. -/
inductive RunResult where
  | sysExit (code : Option Int) (s : LoopState)
  | uncaught (e : PyError) (s : LoopState)
  | finished (s : LoopState)
  | running (s : LoopState)

/-- CPython's process exit status for each outcome: `SystemExit` with no
argument (or `None`) exits 0, `SystemExit(n)` exits `n`, an unhandled
exception exits 1, falling off `__main__` exits 0; `none` while the loop
is still running. -/
def RunResult.exitCode : RunResult → Option Int
  | .sysExit none _ => some 0
  | .sysExit (some c) _ => some c
  | .uncaught _ _ => some 1
  | .finished _ => some 0
  | .running _ => none

def RunResult.endState : RunResult → LoopState
  | .sysExit _ s => s
  | .uncaught _ s => s
  | .finished s => s
  | .running s => s

/-- One iteration of `_run`'s while loop, then the loop on remaining
fuel: the gated scan (credential check, probe cycle, save), then the
dispatch of both sinks when `new_channels` is non-empty, then the
`loop_flag` check. -/
def runLoop (cfg : Config) (env : RunEnv) (loop_flag : Bool) : Nat → LoopState → RunResult
  | 0, s => .running s
  | fuel + 1, s =>
    let now := env.now s.iter
    let scanned : Except RunResult LoopState :=
      if now > s.next_scan_at then
        match (ensureAuth s.auth env.tokenResp now cfg.twitch_client_id).1 with
        | none => .error (.sysExit none s)
        | some auth =>
          match isolate_who_went_live s.fs env.probe STATE_FILE (sortedChannels cfg) with
          | .error e => .error (.uncaught e { s with auth := some auth })
          | .ok (na, fs2) =>
            .ok { s with
                  auth := some auth
                  fs := fs2
                  new_channels := na
                  next_scan_at := now + SCAN_FREQUENCY_SECONDS }
      else .ok s
    match scanned with
    | .error r => r
    | .ok s1 =>
      let s2 :=
        if s1.new_channels = ∅ then s1
        else
          { s1 with
            trace := s1.trace ++
              [(send_discord_webhook (s1.new_channels.sort (· ≤ ·)) cfg.discord_webhook_url
                  env.discordResp,
                send_pagerduty_alert (s1.new_channels.sort (· ≤ ·)) cfg.pagerduty_key
                  env.pdResp)],
            new_channels := ∅ }
      if loop_flag then runLoop cfg env loop_flag fuel { s2 with iter := s2.iter + 1 }
      else .finished s2

/-- `_run(loop_flag=...)` from its initial state (`auth = None`,
`next_scan_at = 0`, no pending channels). -/
def _run (cfg : Config) (env : RunEnv) (loop_flag : Bool) (fuel : Nat) : RunResult :=
  runLoop cfg env loop_flag fuel
    { auth := none, next_scan_at := 0, new_channels := ∅, fs := env.fs0, trace := [], iter := 0 }

/-- `_run_once()`: a single-shot run performs exactly one iteration. -/
def _run_once (cfg : Config) (env : RunEnv) : RunResult := _run cfg env false 1

end Main

namespace TA

/-! ### The enriched variant, `src/twitch_alerts/_twitch_alerts.py` -/

/-- The `Channel` dataclass. -/
structure Channel where
  name : String
  title : String
  game : String
  thumbnail_url : String
  type : String
deriving DecidableEq

/-- `Channel.is_live`: `self.type == "live"`. -/
def Channel.is_live (c : Channel) : Bool := c.type == "live"

/-- `_get_channel(channel_name, auth)` applied to the HTTP response it
receives: raises `ValueError` on a non-success response (and on an
unparseable body), `KeyError` on a missing `data` key, an empty `data`
list, or a missing field of the first element; otherwise builds the
`Channel` from the first element. -/
def _get_channel (r : Response) : Except PyError Channel :=
  if r.is_success = false then .error .valueError
  else
    match r.body with
    | .malformed => .error .valueError
    | .obj none => .error .keyError
    | .obj (some []) => .error .keyError
    | .obj (some (d :: _)) =>
      match d.user_login, d.title, d.game_name, d.thumbnail_url, d.type with
      | some n, some t, some g, some th, some ty =>
        .ok { name := n, title := t, game := g, thumbnail_url := th, type := ty }
      | _, _, _, _, _ => .error .keyError

/-- The boolean recorded for a channel by the probe loop of
`isolate_who_went_live`: `False` when `_get_channel` raised, else the
channel's `is_live`. -/
def channelStateOf (r : Response) : Bool :=
  match _get_channel r with
  | .error _ => false
  | .ok channel => channel.is_live

/-- The `for channel_name in channels` loop of `isolate_who_went_live`:
`ValueError` and `KeyError` from `_get_channel` are caught and the
channel recorded as not live; a live channel is also entered into
`live_channel_map` under its API-reported name. -/
def probeLoop (probe : String → Response) :
    List String → Snapshot → List (String × Channel) → Snapshot × List (String × Channel)
  | [], current_state, live_channel_map => (current_state, live_channel_map)
  | channel_name :: rest, current_state, live_channel_map =>
    match _get_channel (probe channel_name) with
    | .error _ => probeLoop probe rest (dictSet current_state channel_name false) live_channel_map
    | .ok channel =>
      probeLoop probe rest (dictSet current_state channel_name channel.is_live)
        (if channel.is_live then dictSet live_channel_map channel.name channel
         else live_channel_map)

/-- `isolate_who_went_live(auth, state_file, channels)`: load the
previous state, probe every channel (per-channel failures recorded as
not live), diff, save the new state, and return the live `Channel`
records whose name is in the transition set. -/
def isolate_who_went_live (fs : FS) (probe : String → Response) (state_file : String)
    (channels : List String) : Except PyError (List Channel × FS) :=
  match _load_state fs state_file with
  | .error e => .error e
  | .ok previous_state =>
    let r := probeLoop probe channels [] []
    let new_actives := _isolate_newly_active previous_state r.1
    .ok ((r.2.filter (fun p => decide (p.1 ∈ new_actives))).map Prod.snd,
         _save_state r.1 fs state_file)

end TA

/-- The boolean `Main._is_stream_live` yields on success (`false` as a
placeholder on the error paths); used to state theorems about the
recorded state. -/
def Main.stateOf (r : Response) : Bool :=
  match Main._is_stream_live r with
  | .ok b => b
  | .error _ => false

/-! ### Concrete fixtures (counterexample and witness inputs) -/

/-- A well-formed `data[0]` element of a live stream. -/
def liveStreamData : StreamData :=
  { user_login := some "alpha", title := some "t", game_name := some "g",
    thumbnail_url := some "th", type := some "live" }

/-- A successful response reporting a live stream. -/
def liveResponse : Response := { is_success := true, body := .obj (some [liveStreamData]) }

/-- A successful response with an empty `data` list (offline channel). -/
def offlineResponse : Response := { is_success := true, body := .obj (some []) }

/-- A failed (non-success) response. -/
def errorResponse : Response := { is_success := false, body := .malformed }

/-- A successful response whose JSON body has no `data` key. -/
def malformedOkResponse : Response := { is_success := true, body := .obj none }

/-- A state file holding content that is not valid JSON. -/
def fsGarbage : FS := fun p => if p = STATE_FILE then some "garbage" else none

/-- A state file recording channel `alpha` as live. -/
def fsAlphaTrue : FS := fun p => if p = STATE_FILE then some (dumps [("alpha", true)]) else none

/-- No files at all (cold start). -/
def fsEmpty : FS := fun _ => none

/-- A configuration watching channel `alpha` with both sinks configured. -/
def cfg0 : Config :=
  { twitch_client_id := "id", twitch_client_secret := "secret",
    twitch_channel_names := {"alpha"}, discord_webhook_url := "wh",
    pagerduty_key := "pk" }

def tokenFail : TokenResponse := { is_success := false, access_token := "", expires_in := 0 }

def tokenOk : TokenResponse := { is_success := true, access_token := "tok", expires_in := 5000 }

def sinkOk : SinkResponse := { is_success := true, status_code := 200 }

def sinkFail500 : SinkResponse := { is_success := false, status_code := 500 }

/-- A run whose token exchange fails. -/
def envAuthFail : Main.RunEnv :=
  { tokenResp := tokenFail, probe := fun _ => errorResponse, discordResp := sinkOk,
    pdResp := sinkOk, now := fun _ => 1, fs0 := fsEmpty }

/-- A run with working credentials, a live channel, a failing chat sink
and a working paging sink. -/
def envGood : Main.RunEnv :=
  { tokenResp := tokenOk, probe := fun _ => liveResponse, discordResp := sinkFail500,
    pdResp := sinkOk, now := fun _ => 1, fs0 := fsEmpty }

/-- The live `Channel` record built from `liveResponse`. -/
def chanLive : TA.Channel :=
  { name := "alpha", title := "t", game := "g", thumbnail_url := "th", type := "live" }

/-! ### Round trip of the serializer through the parser -/

theorem hexVal_hexDigit (d : Nat) (h : d < 16) : hexVal (hexDigit d) = some d := by
  interval_cases d <;> decide

theorem char_range (c : Char) : c.toNat < 55296 ∨ (57343 < c.toNat ∧ c.toNat < 1114112) := by
  have h := c.valid
  unfold UInt32.isValidChar Nat.isValidChar at h
  exact h

theorem parseHex4_cons (c1 c2 c3 c4 : Char) (rest : List Char) (d1 d2 d3 d4 : Nat)
    (h1 : hexVal c1 = some d1) (h2 : hexVal c2 = some d2)
    (h3 : hexVal c3 = some d3) (h4 : hexVal c4 = some d4) :
    parseHex4 (c1 :: c2 :: c3 :: c4 :: rest) = some (4096 * d1 + 256 * d2 + 16 * d3 + d4, rest) := by
  simp [parseHex4, h1, h2, h3, h4]

theorem parseHex4_hex4 (n : Nat) (h : n < 65536) (rest : List Char) :
    parseHex4 (hex4 n ++ rest) = some (n, rest) := by
  have e : hex4 n ++ rest =
      hexDigit (n / 4096 % 16) :: hexDigit (n / 256 % 16) :: hexDigit (n / 16 % 16) ::
        hexDigit (n % 16) :: rest := rfl
  rw [e, parseHex4_cons _ _ _ _ rest _ _ _ _
    (hexVal_hexDigit _ (by omega)) (hexVal_hexDigit _ (by omega))
    (hexVal_hexDigit _ (by omega)) (hexVal_hexDigit _ (by omega))]
  simp only [Option.some.injEq, Prod.mk.injEq, and_true]
  omega

theorem parseUEscape_single (v : Nat) (tail : List Char)
    (hbmp : v < 65536) (hns : ¬(55296 ≤ v ∧ v < 57344)) :
    parseUEscape (hex4 v ++ tail) = some (Char.ofNat v, tail) := by
  have e1 : parseHex4 (hex4 v ++ tail) = some (v, tail) := parseHex4_hex4 v hbmp tail
  generalize hg : hex4 v = H at e1 ⊢
  rw [parseUEscape, e1, parseUEscapeAux]
  rw [if_neg (by omega : ¬(55296 ≤ v ∧ v < 56320)),
    if_neg (by omega : ¬(56320 ≤ v ∧ v < 57344))]

theorem parseUEscape_pair (v : Nat) (tail : List Char)
    (h1 : 65536 ≤ v) (h2 : v < 1114112) :
    parseUEscape (hex4 (55296 + (v - 65536) / 1024) ++
      ('\x5c' :: 'u' :: (hex4 (56320 + (v - 65536) % 1024) ++ tail))) =
      some (Char.ofNat v, tail) := by
  have hhi : 55296 + (v - 65536) / 1024 < 65536 := by omega
  have hlo : 56320 + (v - 65536) % 1024 < 65536 := by omega
  have e2 : parseHex4 (hex4 (56320 + (v - 65536) % 1024) ++ tail) =
      some (56320 + (v - 65536) % 1024, tail) := parseHex4_hex4 _ hlo tail
  have e1 : parseHex4 (hex4 (55296 + (v - 65536) / 1024) ++
      ('\x5c' :: 'u' :: (hex4 (56320 + (v - 65536) % 1024) ++ tail))) =
      some (55296 + (v - 65536) / 1024,
        '\x5c' :: 'u' :: (hex4 (56320 + (v - 65536) % 1024) ++ tail)) := parseHex4_hex4 _ hhi _
  generalize hg2 : hex4 (56320 + (v - 65536) % 1024) = H2 at e1 e2 ⊢
  generalize hg1 : hex4 (55296 + (v - 65536) / 1024) = H1 at e1 ⊢
  rw [parseUEscape, e1, parseUEscapeAux]
  rw [if_pos (by omega : 55296 ≤ 55296 + (v - 65536) / 1024 ∧ 55296 + (v - 65536) / 1024 < 56320)]
  rw [parseLowSurrogate]
  rw [if_pos (⟨rfl, rfl⟩ : ('\x5c' : Char) = '\x5c' ∧ ('u' : Char) = 'u')]
  rw [e2, finishLowSurrogate]
  rw [if_pos (by omega : 56320 ≤ 56320 + (v - 65536) % 1024 ∧ 56320 + (v - 65536) % 1024 < 57344)]
  have e : 65536 + (55296 + (v - 65536) / 1024 - 55296) * 1024 +
      (56320 + (v - 65536) % 1024 - 56320) = v := by omega
  rw [e]

theorem parseEscape_u_cons (rest : List Char) : parseEscape ('u' :: rest) = parseUEscape rest := by
  simp [parseEscape]

/-- Unfolding of `parseStrChars` after a backslash whose escape parses. -/
theorem parseStrChars_bs (fuel : Nat) (rest : List Char) (d : Char) (r2 : List Char)
    (h : parseEscape rest = some (d, r2)) :
    parseStrChars (fuel + 1) ('\x5c' :: rest) =
      (parseStrChars fuel r2).map (fun p => (d :: p.1, p.2)) := by
  simp [parseStrChars, h]

/-- Unfolding of `parseStrChars` at a literal (unescaped) character. -/
theorem parseStrChars_lit (fuel : Nat) (c : Char) (rest : List Char)
    (h1 : ¬(c = '\x22')) (h2 : ¬(c = '\x5c')) (h3 : 32 ≤ c.toNat) :
    parseStrChars (fuel + 1) (c :: rest) =
      (parseStrChars fuel rest).map (fun p => (c :: p.1, p.2)) := by
  simp [parseStrChars, h1, h2, h3]

theorem escapeChar_control (c : Char)
    (h1 : ¬(c = '\x22')) (h2 : ¬(c = '\x5c')) (h3 : ¬(c = '\x08')) (h4 : ¬(c = '\x0c'))
    (h5 : ¬(c = '\n')) (h6 : ¬(c = '\r')) (h7 : ¬(c = '\t')) (h8 : c.toNat < 32) :
    escapeChar c = '\x5c' :: 'u' :: hex4 c.toNat := by
  unfold escapeChar
  rw [if_neg h1, if_neg h2, if_neg h3, if_neg h4, if_neg h5, if_neg h6, if_neg h7, if_pos h8]

theorem escapeChar_lit (c : Char)
    (h1 : ¬(c = '\x22')) (h2 : ¬(c = '\x5c')) (h3 : ¬(c = '\x08')) (h4 : ¬(c = '\x0c'))
    (h5 : ¬(c = '\n')) (h6 : ¬(c = '\r')) (h7 : ¬(c = '\t'))
    (h8 : ¬(c.toNat < 32)) (h9 : c.toNat < 127) :
    escapeChar c = [c] := by
  unfold escapeChar
  rw [if_neg h1, if_neg h2, if_neg h3, if_neg h4, if_neg h5, if_neg h6, if_neg h7, if_neg h8,
    if_pos h9]

theorem escapeChar_bmp (c : Char)
    (h1 : ¬(c = '\x22')) (h2 : ¬(c = '\x5c')) (h3 : ¬(c = '\x08')) (h4 : ¬(c = '\x0c'))
    (h5 : ¬(c = '\n')) (h6 : ¬(c = '\r')) (h7 : ¬(c = '\t'))
    (h8 : ¬(c.toNat < 32)) (h9 : ¬(c.toNat < 127)) (h10 : c.toNat < 65536) :
    escapeChar c = '\x5c' :: 'u' :: hex4 c.toNat := by
  unfold escapeChar
  rw [if_neg h1, if_neg h2, if_neg h3, if_neg h4, if_neg h5, if_neg h6, if_neg h7, if_neg h8,
    if_neg h9, if_pos h10]

theorem escapeChar_astral (c : Char)
    (h1 : ¬(c = '\x22')) (h2 : ¬(c = '\x5c')) (h3 : ¬(c = '\x08')) (h4 : ¬(c = '\x0c'))
    (h5 : ¬(c = '\n')) (h6 : ¬(c = '\r')) (h7 : ¬(c = '\t'))
    (h8 : ¬(c.toNat < 32)) (h9 : ¬(c.toNat < 127)) (h10 : ¬(c.toNat < 65536)) :
    escapeChar c = '\x5c' :: 'u' :: hex4 (55296 + (c.toNat - 65536) / 1024) ++
      '\x5c' :: 'u' :: hex4 (56320 + (c.toNat - 65536) % 1024) := by
  unfold escapeChar
  rw [if_neg h1, if_neg h2, if_neg h3, if_neg h4, if_neg h5, if_neg h6, if_neg h7, if_neg h8,
    if_neg h9, if_neg h10]

theorem parseStrChars_escapeChar (fuel : Nat) (c : Char) (tail : List Char) :
    parseStrChars (fuel + 1) (escapeChar c ++ tail) =
      (parseStrChars fuel tail).map (fun p => (c :: p.1, p.2)) := by
  have hv := char_range c
  by_cases h1 : c = '\x22'
  · subst h1
    exact parseStrChars_bs fuel _ _ _ rfl
  by_cases h2 : c = '\x5c'
  · subst h2
    exact parseStrChars_bs fuel _ _ _ rfl
  by_cases h3 : c = '\x08'
  · subst h3
    exact parseStrChars_bs fuel _ _ _ rfl
  by_cases h4 : c = '\x0c'
  · subst h4
    exact parseStrChars_bs fuel _ _ _ rfl
  by_cases h5 : c = '\n'
  · subst h5
    exact parseStrChars_bs fuel _ _ _ rfl
  by_cases h6 : c = '\r'
  · subst h6
    exact parseStrChars_bs fuel _ _ _ rfl
  by_cases h7 : c = '\t'
  · subst h7
    exact parseStrChars_bs fuel _ _ _ rfl
  by_cases h8 : c.toNat < 32
  · rw [escapeChar_control c h1 h2 h3 h4 h5 h6 h7 h8, List.cons_append, List.cons_append]
    have hpe : parseEscape ('u' :: (hex4 c.toNat ++ tail)) = some (c, tail) := by
      rw [parseEscape_u_cons, parseUEscape_single _ _ (by omega) (by omega), Char.ofNat_toNat]
    exact parseStrChars_bs fuel _ _ _ hpe
  by_cases h9 : c.toNat < 127
  · rw [escapeChar_lit c h1 h2 h3 h4 h5 h6 h7 h8 h9, List.singleton_append]
    exact parseStrChars_lit fuel c tail h1 h2 (by omega)
  by_cases h10 : c.toNat < 65536
  · rw [escapeChar_bmp c h1 h2 h3 h4 h5 h6 h7 h8 h9 h10, List.cons_append, List.cons_append]
    have hpe : parseEscape ('u' :: (hex4 c.toNat ++ tail)) = some (c, tail) := by
      rw [parseEscape_u_cons, parseUEscape_single _ _ h10 (by omega), Char.ofNat_toNat]
    exact parseStrChars_bs fuel _ _ _ hpe
  · rw [escapeChar_astral c h1 h2 h3 h4 h5 h6 h7 h8 h9 h10]
    have e : ('\x5c' :: 'u' :: hex4 (55296 + (c.toNat - 65536) / 1024) ++
        '\x5c' :: 'u' :: hex4 (56320 + (c.toNat - 65536) % 1024)) ++ tail =
        '\x5c' :: ('u' :: (hex4 (55296 + (c.toNat - 65536) / 1024) ++
          ('\x5c' :: 'u' :: (hex4 (56320 + (c.toNat - 65536) % 1024) ++ tail)))) := by
      simp [List.append_assoc]
    rw [e]
    have hpe : parseEscape ('u' :: (hex4 (55296 + (c.toNat - 65536) / 1024) ++
        ('\x5c' :: 'u' :: (hex4 (56320 + (c.toNat - 65536) % 1024) ++ tail)))) =
        some (c, tail) := by
      rw [parseEscape_u_cons, parseUEscape_pair c.toNat tail (by omega) (by omega),
        Char.ofNat_toNat]
    exact parseStrChars_bs fuel _ _ _ hpe

theorem parseStrChars_escapeList (s : List Char) (tail : List Char) (fuel : Nat) :
    parseStrChars (s.length + fuel + 1) (escapeList s ++ '\x22' :: tail) = some (s, tail) := by
  induction s generalizing fuel with
  | nil => simp [escapeList, parseStrChars]
  | cons c cs ih =>
    have e : escapeList (c :: cs) ++ '\x22' :: tail =
        escapeChar c ++ (escapeList cs ++ '\x22' :: tail) := by
      simp [escapeList, List.append_assoc]
    have e2 : (c :: cs).length + fuel + 1 = (cs.length + fuel + 1) + 1 := by
      simp [List.length_cons]; omega
    rw [e, e2, parseStrChars_escapeChar, ih fuel]
    rfl

theorem parseStrChars_escapeList_of_lt (s tail : List Char) (fuel : Nat) (h : s.length < fuel) :
    parseStrChars fuel (escapeList s ++ '\x22' :: tail) = some (s, tail) := by
  obtain ⟨k, rfl⟩ : ∃ k, fuel = s.length + k + 1 := ⟨fuel - s.length - 1, by omega⟩
  exact parseStrChars_escapeList s tail k

theorem escapeChar_length_pos (c : Char) : 1 ≤ (escapeChar c).length := by
  by_cases h1 : c = '\x22'
  · subst h1; decide
  by_cases h2 : c = '\x5c'
  · subst h2; decide
  by_cases h3 : c = '\x08'
  · subst h3; decide
  by_cases h4 : c = '\x0c'
  · subst h4; decide
  by_cases h5 : c = '\n'
  · subst h5; decide
  by_cases h6 : c = '\r'
  · subst h6; decide
  by_cases h7 : c = '\t'
  · subst h7; decide
  by_cases h8 : c.toNat < 32
  · rw [escapeChar_control c h1 h2 h3 h4 h5 h6 h7 h8]; simp [hex4]
  by_cases h9 : c.toNat < 127
  · rw [escapeChar_lit c h1 h2 h3 h4 h5 h6 h7 h8 h9]; simp
  by_cases h10 : c.toNat < 65536
  · rw [escapeChar_bmp c h1 h2 h3 h4 h5 h6 h7 h8 h9 h10]; simp [hex4]
  · rw [escapeChar_astral c h1 h2 h3 h4 h5 h6 h7 h8 h9 h10]; simp [hex4]

theorem escapeList_length (s : List Char) : s.length ≤ (escapeList s).length := by
  induction s with
  | nil => simp [escapeList]
  | cons c cs ih =>
    have := escapeChar_length_pos c
    simp only [escapeList, List.length_append, List.length_cons]
    omega

theorem parseString_quote (rest : List Char) :
    parseString ('\x22' :: rest) =
      (parseStrChars (rest.length + 1) rest).map (fun p => (String.mk p.1, p.2)) := by
  simp [parseString]

theorem parseString_dumpString (k : String) (tail : List Char) :
    parseString (dumpString k ++ tail) = some (k, tail) := by
  have e : dumpString k ++ tail = '\x22' :: (escapeList k.data ++ '\x22' :: tail) := by
    simp [dumpString]
  rw [e, parseString_quote]
  rw [parseStrChars_escapeList_of_lt _ _ _ (by
    have := escapeList_length k.data
    simp only [List.length_append, List.length_cons]
    omega)]
  rfl

theorem parseBool_dumpBool (b : Bool) (tail : List Char) :
    parseBool (dumpBool b ++ tail) = some (b, tail) := by
  cases b <;> simp [dumpBool, parseBool]

theorem skipWs_cons (c : Char) (l : List Char) (h : isWs c = false) : skipWs (c :: l) = c :: l := by
  simp [skipWs, h]

theorem skipWs_space (l : List Char) : skipWs (' ' :: l) = skipWs l := by
  simp [skipWs, isWs]

theorem skipWs_dumpBool (b : Bool) (t : List Char) :
    skipWs (dumpBool b ++ t) = dumpBool b ++ t := by
  cases b <;> simp [dumpBool, skipWs, isWs]

theorem dumpEntries_cons_shape (k : String) (v : Bool) (rest : Snapshot) (t : List Char) :
    ∃ r, dumpEntries ((k, v) :: rest) ++ t = '\x22' :: r := by
  cases rest with
  | nil =>
    exact ⟨escapeList k.data ++ '\x22' :: ':' :: ' ' :: (dumpBool v ++ t),
      by simp [dumpEntries, dumpString]⟩
  | cons kv2 rest2 =>
    exact ⟨escapeList k.data ++ '\x22' :: ':' :: ' ' ::
        (dumpBool v ++ ',' :: ' ' :: (dumpEntries (kv2 :: rest2) ++ t)),
      by simp [dumpEntries, dumpString]⟩

theorem skipWs_dumpEntries (k : String) (v : Bool) (rest : Snapshot) (t : List Char) :
    skipWs (dumpEntries ((k, v) :: rest) ++ t) = dumpEntries ((k, v) :: rest) ++ t := by
  obtain ⟨r, hr⟩ := dumpEntries_cons_shape k v rest t
  rw [hr, skipWs_cons _ _ (by decide)]

theorem dumpEntries_length (st : Snapshot) : st.length ≤ (dumpEntries st).length := by
  induction st with
  | nil => simp [dumpEntries]
  | cons kv rest ih =>
    obtain ⟨k, v⟩ := kv
    cases rest with
    | nil => simp [dumpEntries, dumpString]
    | cons kv2 rest2 =>
      simp only [dumpEntries, dumpString, List.length_append, List.length_cons] at *
      omega

theorem skipWs_colon (l : List Char) : skipWs (':' :: l) = ':' :: l :=
  skipWs_cons _ _ (by decide)

theorem skipWs_comma (l : List Char) : skipWs (',' :: l) = ',' :: l :=
  skipWs_cons _ _ (by decide)

theorem skipWs_rbrace (l : List Char) : skipWs ('\x7d' :: l) = '\x7d' :: l :=
  skipWs_cons _ _ (by decide)

theorem skipWs_quote (l : List Char) : skipWs ('\x22' :: l) = '\x22' :: l :=
  skipWs_cons _ _ (by decide)

theorem parseMembers_dumpEntries (k : String) (v : Bool) (rest : Snapshot) (tail : List Char)
    (fuel : Nat) (hf : rest.length + 1 < fuel) :
    parseMembers fuel (dumpEntries ((k, v) :: rest) ++ '\x7d' :: tail) =
      some ((k, v) :: rest, tail) := by
  induction rest generalizing k v fuel tail with
  | nil =>
    obtain ⟨fuel2, rfl⟩ : ∃ f, fuel = f + 1 := ⟨fuel - 1, by omega⟩
    have e : dumpEntries [(k, v)] ++ '\x7d' :: tail =
        dumpString k ++ (':' :: ' ' :: (dumpBool v ++ '\x7d' :: tail)) := by
      simp [dumpEntries]
    rw [e]
    simp [parseMembers, parseString_dumpString, skipWs_colon, skipWs_space, skipWs_dumpBool,
      parseBool_dumpBool, skipWs_rbrace]
  | cons kv2 rest2 ih =>
    obtain ⟨k2, v2⟩ := kv2
    obtain ⟨fuel2, rfl⟩ : ∃ f, fuel = f + 1 := ⟨fuel - 1, by omega⟩
    have e : dumpEntries ((k, v) :: (k2, v2) :: rest2) ++ '\x7d' :: tail =
        dumpString k ++ (':' :: ' ' ::
          (dumpBool v ++ ',' :: ' ' :: (dumpEntries ((k2, v2) :: rest2) ++ '\x7d' :: tail))) := by
      simp [dumpEntries]
    rw [e]
    simp [parseMembers, parseString_dumpString, skipWs_colon, skipWs_space, skipWs_dumpBool,
      parseBool_dumpBool, skipWs_comma, skipWs_dumpEntries]
    rw [ih k2 v2 tail fuel2 (by simp only [List.length_cons] at hf ⊢; omega)]

theorem parseObj_dumpChars (st : Snapshot) (tail : List Char) (fuel : Nat)
    (hf : st.length < fuel) :
    parseObj fuel (dumpChars st ++ tail) = some (st, tail) := by
  cases st with
  | nil => simp [dumpChars, dumpEntries, parseObj, skipWs, isWs]
  | cons kv rest =>
    obtain ⟨k, v⟩ := kv
    obtain ⟨r, hr⟩ := dumpEntries_cons_shape k v rest ('\x7d' :: tail)
    have e : dumpChars ((k, v) :: rest) ++ tail = '\x7b' :: ('\x22' :: r) := by
      rw [← hr]
      simp [dumpChars]
    rw [e]
    simp [parseObj, skipWs_quote]
    rw [← hr]
    exact parseMembers_dumpEntries k v rest tail fuel
      (by simp only [List.length_cons] at hf; omega)

/-- `json.load` after `json.dump` recovers the state map exactly. -/
theorem loads_dumps (st : Snapshot) : loads (dumps st) = .ok st := by
  have hskip : skipWs (dumps st).data = (dumps st).data := by
    show skipWs ('\x7b' :: (dumpEntries st ++ ['\x7d'])) = _
    exact skipWs_cons _ _ (by decide)
  have hlen : st.length < (dumps st).data.length + 1 := by
    have h1 := dumpEntries_length st
    show st.length < ('\x7b' :: (dumpEntries st ++ ['\x7d'])).length + 1
    simp only [List.length_append, List.length_cons]
    omega
  simp only [loads, hskip]
  rw [show (dumps st).data = dumpChars st ++ [] from by simp [dumps, dumpChars]]
  rw [parseObj_dumpChars st [] _ (by
    simpa [dumps, dumpChars] using hlen)]
  simp [skipWs]

/-! ### Lemmas about the dict model and the change detector -/

theorem mem_isolateLoop (prev : Snapshot) (l : Snapshot) (acc : Finset String) (x : String) :
    x ∈ isolateLoop prev l acc ↔
      x ∈ acc ∨ ((x, true) ∈ l ∧ dictGet prev x false = false) := by
  induction l generalizing acc with
  | nil => simp [isolateLoop]
  | cons kv t ih =>
    obtain ⟨k, v⟩ := kv
    rw [isolateLoop, ih]
    by_cases hc : v = true ∧ dictGet prev k false = false
    · rw [if_pos hc]
      obtain ⟨hv, hp⟩ := hc
      subst hv
      simp only [Finset.mem_insert, List.mem_cons, Prod.mk.injEq]
      by_cases hx : x = k
      · subst hx
        simp [hp]
      · simp [hx]
    · rw [if_neg hc]
      simp only [List.mem_cons, Prod.mk.injEq]
      by_cases hx : x = k
      · subst hx
        constructor
        · tauto
        · rintro (hacc | ⟨⟨-, hv⟩ | hmem, hp⟩)
          · exact Or.inl hacc
          · exact absurd ⟨hv.symm, hp⟩ hc
          · exact Or.inr ⟨hmem, hp⟩
      · constructor
        · tauto
        · rintro (hacc | ⟨⟨he, -⟩ | hmem, hp⟩)
          · exact Or.inl hacc
          · exact absurd he hx
          · exact Or.inr ⟨hmem, hp⟩

theorem mem_isolate_newly_active (prev curr : Snapshot) (x : String) :
    x ∈ _isolate_newly_active prev curr ↔
      ((x, true) ∈ curr ∧ dictGet prev x false = false) := by
  rw [_isolate_newly_active, mem_isolateLoop]
  simp

theorem dictLookup_eq_some_true_iff (l : Snapshot) (x : String)
    (hnd : (l.map Prod.fst).Nodup) :
    dictLookup l x = some true ↔ (x, true) ∈ l := by
  induction l with
  | nil => simp [dictLookup]
  | cons kv t ih =>
    obtain ⟨k, v⟩ := kv
    simp only [List.map_cons, List.nodup_cons] at hnd
    obtain ⟨hk, hnd2⟩ := hnd
    rw [dictLookup]
    by_cases hx : k = x
    · subst hx
      rw [if_pos rfl]
      simp only [Option.some.injEq, List.mem_cons, Prod.mk.injEq]
      constructor
      · intro h
        exact Or.inl ⟨trivial, h.symm⟩
      · rintro (⟨-, rfl⟩ | hmem)
        · rfl
        · exact absurd (List.mem_map_of_mem Prod.fst hmem) hk
    · rw [if_neg hx, ih hnd2]
      simp only [List.mem_cons, Prod.mk.injEq]
      constructor
      · exact fun h => Or.inr h
      · rintro (⟨rfl, -⟩ | hmem)
        · exact absurd rfl hx
        · exact hmem

theorem dictLookup_map (l : List String) (f : String → Bool) (x : String) :
    dictLookup (l.map fun c => (c, f c)) x = if x ∈ l then some (f x) else none := by
  induction l with
  | nil => simp [dictLookup]
  | cons c t ih =>
    rw [List.map_cons, dictLookup]
    by_cases hc : c = x
    · subst hc
      simp
    · rw [if_neg hc, ih]
      simp [Ne.symm hc, hc]

theorem dictSet_of_not_mem {β : Type} (d : List (String × β)) (k : String) (v : β)
    (h : k ∉ d.map Prod.fst) : dictSet d k v = d ++ [(k, v)] := by
  induction d with
  | nil => rfl
  | cons kv t ih =>
    obtain ⟨k0, v0⟩ := kv
    simp only [List.map_cons, List.mem_cons] at h
    push_neg at h
    rw [dictSet, if_neg (fun he => h.1 he.symm), ih h.2]
    rfl

theorem dictSet_forall {β : Type} (P : String × β → Prop) (d : List (String × β)) (k : String)
    (v : β) (hd : ∀ p ∈ d, P p) (hv : P (k, v)) : ∀ p ∈ dictSet d k v, P p := by
  induction d with
  | nil =>
    intro p hp
    simp only [dictSet, List.mem_singleton] at hp
    rw [hp]
    exact hv
  | cons kv t ih =>
    obtain ⟨k0, v0⟩ := kv
    intro p hp
    rw [dictSet] at hp
    by_cases he : k0 = k
    · rw [if_pos he] at hp
      rcases List.mem_cons.mp hp with heq | hmem
      · rw [heq, he]
        exact hv
      · exact hd _ (List.mem_cons_of_mem _ hmem)
    · rw [if_neg he] at hp
      rcases List.mem_cons.mp hp with heq | hmem
      · rw [heq]
        exact hd _ (List.mem_cons_self _ _)
      · exact ih (fun q hq => hd q (List.mem_cons_of_mem _ hq)) _ hmem

/-! ### Characterizations of the probe loops -/

theorem Main.probeAll_eq (probe : String → Response) (channels : List String) (st : Snapshot)
    (hok : ∀ c ∈ channels, (Main._is_stream_live (probe c)).isOk = true)
    (hdisj : ∀ c ∈ channels, c ∉ st.map Prod.fst) (hnd : channels.Nodup) :
    Main.probeAll probe channels st =
      .ok (st ++ channels.map fun c => (c, Main.stateOf (probe c))) := by
  induction channels generalizing st with
  | nil => simp [Main.probeAll]
  | cons c t ih =>
    simp only [List.nodup_cons] at hnd
    have hmem := hdisj c (List.mem_cons_self c t)
    have hdisj2 : ∀ (X : Bool), ∀ q ∈ t, q ∉ (st ++ [(c, X)]).map Prod.fst := by
      intro X q hq
      simp only [List.map_append, List.mem_append]
      push_neg
      refine ⟨hdisj q (List.mem_cons_of_mem _ hq), ?_⟩
      simp only [List.map_cons, List.map_nil, List.mem_singleton]
      exact fun he => hnd.1 (he ▸ hq)
    have hc : Main._is_stream_live (probe c) = .ok (Main.stateOf (probe c)) := by
      cases h : Main._is_stream_live (probe c) with
      | error e =>
        have := hok c (List.mem_cons_self c t)
        rw [h] at this
        simp [Except.isOk, Except.toBool] at this
      | ok b =>
        rw [Main.stateOf, h]
    simp only [Main.probeAll, hc]
    rw [ih (dictSet st c (Main.stateOf (probe c)))
      (fun q hq => hok q (List.mem_cons_of_mem _ hq))
      (by rw [dictSet_of_not_mem st c _ hmem]; exact hdisj2 _)
      hnd.2]
    rw [dictSet_of_not_mem st c _ hmem]
    simp

theorem TA.probeLoop_fst (probe : String → Response) (channels : List String) (st : Snapshot)
    (lm : List (String × TA.Channel))
    (hdisj : ∀ c ∈ channels, c ∉ st.map Prod.fst) (hnd : channels.Nodup) :
    (TA.probeLoop probe channels st lm).1 =
      st ++ channels.map fun c => (c, TA.channelStateOf (probe c)) := by
  induction channels generalizing st lm with
  | nil => simp [TA.probeLoop]
  | cons c t ih =>
    simp only [List.nodup_cons] at hnd
    have hmem := hdisj c (List.mem_cons_self c t)
    have hdisj2 : ∀ (X : Bool), ∀ q ∈ t, q ∉ (st ++ [(c, X)]).map Prod.fst := by
      intro X q hq
      simp only [List.map_append, List.mem_append]
      push_neg
      refine ⟨hdisj q (List.mem_cons_of_mem _ hq), ?_⟩
      simp only [List.map_cons, List.map_nil, List.mem_singleton]
      exact fun he => hnd.1 (he ▸ hq)
    cases h : TA._get_channel (probe c) with
    | error e =>
      have hcs : TA.channelStateOf (probe c) = false := by rw [TA.channelStateOf, h]
      simp only [TA.probeLoop, h]
      rw [ih (dictSet st c false) lm
        (by rw [dictSet_of_not_mem st c false hmem]; exact hdisj2 false) hnd.2]
      rw [dictSet_of_not_mem st c false hmem]
      simp [hcs]
    | ok ch =>
      have hcs : TA.channelStateOf (probe c) = ch.is_live := by rw [TA.channelStateOf, h]
      simp only [TA.probeLoop, h]
      rw [ih (dictSet st c ch.is_live) _
        (by rw [dictSet_of_not_mem st c _ hmem]; exact hdisj2 _) hnd.2]
      rw [dictSet_of_not_mem st c _ hmem]
      simp [hcs]

theorem TA.probeLoop_snd_live (probe : String → Response) (channels : List String)
    (st : Snapshot) (lm : List (String × TA.Channel))
    (h : ∀ p ∈ lm, TA.Channel.is_live p.2 = true) :
    ∀ p ∈ (TA.probeLoop probe channels st lm).2, TA.Channel.is_live p.2 = true := by
  induction channels generalizing st lm with
  | nil => simpa [TA.probeLoop] using h
  | cons c t ih =>
    cases hc : TA._get_channel (probe c) with
    | error e =>
      simp only [TA.probeLoop, hc]
      exact ih _ _ h
    | ok ch =>
      simp only [TA.probeLoop, hc]
      by_cases hl : TA.Channel.is_live ch = true
      · rw [if_pos hl]
        exact ih _ _ (dictSet_forall _ lm ch.name ch h hl)
      · rw [if_neg hl]
        exact ih _ _ h

/-! ### Characterizations of `isolate_who_went_live` -/

theorem Main.isolate_eq_main (fs : FS) (probe : String → Response) (state_file : String)
    (channels : List String) (prev : Snapshot)
    (hload : _load_state fs state_file = .ok prev)
    (hok : ∀ c ∈ channels, (Main._is_stream_live (probe c)).isOk = true)
    (hnd : channels.Nodup) :
    Main.isolate_who_went_live fs probe state_file channels =
      .ok (_isolate_newly_active prev (channels.map fun c => (c, Main.stateOf (probe c))),
           _save_state (channels.map fun c => (c, Main.stateOf (probe c))) fs state_file) := by
  have hp := Main.probeAll_eq probe channels [] hok (by simp) hnd
  rw [List.nil_append] at hp
  simp only [Main.isolate_who_went_live, hload, hp]

theorem TA.isolate_eq_ta (fs : FS) (probe : String → Response) (state_file : String)
    (channels : List String) (prev : Snapshot)
    (hload : _load_state fs state_file = .ok prev) (hnd : channels.Nodup) :
    TA.isolate_who_went_live fs probe state_file channels =
      .ok (((TA.probeLoop probe channels [] []).2.filter
              (fun p => decide (p.1 ∈ _isolate_newly_active prev
                (channels.map fun c => (c, TA.channelStateOf (probe c)))))).map Prod.snd,
           _save_state (channels.map fun c => (c, TA.channelStateOf (probe c))) fs state_file) := by
  have hp := TA.probeLoop_fst probe channels [] [] (by simp) hnd
  rw [List.nil_append] at hp
  simp only [TA.isolate_who_went_live, hload, hp]

/-! ### Behaviour of the run loop -/

theorem Main.run_auth_fail (cfg : Config) (env : Main.RunEnv) (loop_flag : Bool) (fuel : Nat)
    (htok : env.tokenResp.is_success = false) (hnow : env.now 0 > 0) :
    Main._run cfg env loop_flag (fuel + 1) =
      .sysExit none
        { auth := none, next_scan_at := 0, new_channels := ∅, fs := env.fs0, trace := [],
          iter := 0 } := by
  simp [Main._run, Main.runLoop, Main.ensureAuth, get_bearer_token, htok, hnow]

theorem Main.run_once_good (cfg : Config) (env : Main.RunEnv) (prev : Snapshot)
    (hnow : env.now 0 > 0)
    (htok : env.tokenResp.is_success = true)
    (hok : ∀ c, (Main._is_stream_live (env.probe c)).isOk = true)
    (hload : _load_state env.fs0 STATE_FILE = .ok prev) :
    Main._run cfg env false 1 =
      .finished
        (let snap := (sortedChannels cfg).map fun c => (c, Main.stateOf (env.probe c))
         let na := _isolate_newly_active prev snap
         let fs2 := _save_state snap env.fs0 STATE_FILE
         let auth1 : Auth := { access_token := env.tokenResp.access_token,
                               expires_at := env.now 0 + env.tokenResp.expires_in,
                               client_id := cfg.twitch_client_id }
         if na = ∅ then
           { auth := some auth1, next_scan_at := env.now 0 + SCAN_FREQUENCY_SECONDS,
             new_channels := ∅, fs := fs2, trace := [], iter := 0 }
         else
           { auth := some auth1, next_scan_at := env.now 0 + SCAN_FREQUENCY_SECONDS,
             new_channels := ∅, fs := fs2,
             trace := [(send_discord_webhook (na.sort (· ≤ ·)) cfg.discord_webhook_url
                          env.discordResp,
                        send_pagerduty_alert (na.sort (· ≤ ·)) cfg.pagerduty_key env.pdResp)],
             iter := 0 }) := by
  have hiso := Main.isolate_eq_main env.fs0 env.probe STATE_FILE (sortedChannels cfg) prev hload
    (fun c _ => hok c) (Finset.sort_nodup _ _)
  simp only [Main._run, Main.runLoop, Main.ensureAuth, get_bearer_token, htok, hiso, hnow]
  by_cases hna : _isolate_newly_active prev
      ((sortedChannels cfg).map fun c => (c, Main.stateOf (env.probe c))) = ∅
  · simp [hna, hnow]
  · simp [hna, hnow]

/-- Writing a snapshot and reading the same path back yields it. -/
theorem load_after_save (st : Snapshot) (fs : FS) (path : String) :
    _load_state (_save_state st fs path) path = .ok st := by
  have h : _save_state st fs path path = some (dumps st) := by simp [_save_state]
  simp only [_load_state, h, loads_dumps]

/-! ### The claims -/

/-- C1: for every pair of maps `(previous, current)` from channel name to
boolean (`current` with the no-duplicate-keys property every Python dict
has), the change detector returns exactly the set of names `k` with
`current[k] = true` and `previous.get(k, False) = false`; being a pure
Lean function it is deterministic by construction. -/
theorem c1_change_detector (previous current : Snapshot) (x : String)
    (hnd : (current.map Prod.fst).Nodup) :
    x ∈ _isolate_newly_active previous current ↔
      (dictLookup current x = some true ∧ dictGet previous x false = false) := by
  rw [mem_isolate_newly_active, dictLookup_eq_some_true_iff current x hnd]

/-- C1 witness: channel `a` is newly active when live now and absent
before. -/
theorem c1_change_detector_witness :
    ((([("a", true), ("b", true), ("c", false)] : Snapshot).map Prod.fst).Nodup) ∧
    ("a" ∈ _isolate_newly_active [("b", true)] [("a", true), ("b", true), ("c", false)] ↔
      (dictLookup ([("a", true), ("b", true), ("c", false)] : Snapshot) "a" = some true ∧
       dictGet ([("b", true)] : Snapshot) "a" false = false)) :=
  ⟨by decide,
   c1_change_detector [("b", true)] [("a", true), ("b", true), ("c", false)] "a" (by decide)⟩

/-- C9: for every snapshot and every path, saving the snapshot and then
loading from that path returns a map equal to the one saved. -/
theorem c9_save_load_roundtrip (st : Snapshot) (fs : FS) (path : String) :
    _load_state (_save_state st fs path) path = .ok st :=
  load_after_save st fs path

/-- C4 counterexample: a state file that exists but holds unreadable
content makes `_load_state` raise a `ValueError` to the caller instead of
returning the empty map. -/
theorem c4_counterexample :
    fsGarbage STATE_FILE = some "garbage" ∧
    _load_state fsGarbage STATE_FILE = .error .valueError := by
  constructor
  · decide
  · decide

/-- C4 amended: loading returns the empty map when the file is absent
(the benign cold start); but when the file exists with unreadable or
unparseable content the exception propagates to the caller. -/
theorem c4_amended (fs : FS) (path : String) (h : fs path = none) :
    _load_state fs path = .ok [] := by
  simp only [_load_state, h]

/-- C4 witness: a cold start loads the empty map. -/
theorem c4_amended_witness :
    fsEmpty STATE_FILE = none ∧ _load_state fsEmpty STATE_FILE = .ok [] :=
  ⟨rfl, c4_amended fsEmpty STATE_FILE rfl⟩

/-- C5 counterexample: while `[("beta", true)]` is being saved over a
file holding `[("alpha", true)]`, the truncated empty file is an
observable intermediate state; it parses as neither the old nor the new
snapshot (it is no snapshot at all), so an interruption after the
truncation loses the previous state. -/
theorem c5_counterexample :
    ([] : List Char) ∈ saveWriteStates [("beta", true)] ∧
    loads (String.mk []) = .error .valueError ∧
    String.mk [] ≠ dumps [("alpha", true)] ∧
    String.mk [] ≠ dumps [("beta", true)] := by
  refine ⟨?_, by decide, by decide, by decide⟩
  decide

/-- C5 amended: `_save_state` is a non-atomic in-place overwrite: after
it completes the path holds exactly the new snapshot and other paths are
untouched, but the write begins by truncating the file (first observable
content empty) and only ends with the full serialization. -/
theorem c5_amended (st : Snapshot) (fs : FS) (path : String) :
    _save_state st fs path path = some (dumps st) ∧
    (∀ q, q ≠ path → _save_state st fs path q = fs q) ∧
    (saveWriteStates st).head? = some [] ∧
    (saveWriteStates st).getLast? = some (dumpChars st) := by
  refine ⟨by simp [_save_state], fun q hq => by simp [_save_state, hq], ?_, ?_⟩
  · rw [saveWriteStates, List.range_succ_eq_map]
    simp
  · rw [saveWriteStates, List.range_succ]
    simp

/-- C5 witness: saving `[("beta", true)]` over the `alpha` state file. -/
theorem c5_amended_witness :
    _save_state [("beta", true)] fsAlphaTrue STATE_FILE STATE_FILE =
      some (dumps [("beta", true)]) ∧
    _save_state [("beta", true)] fsAlphaTrue STATE_FILE "other" = fsAlphaTrue "other" ∧
    (saveWriteStates [("beta", true)]).head? = some [] := by
  obtain ⟨h1, h2, h3, h4⟩ := c5_amended [("beta", true)] fsAlphaTrue STATE_FILE
  exact ⟨h1, h2 "other" (by decide), h3⟩

/-- C6: on a successful probe response carrying a data list, the channel
is determined live iff the list is non-empty and its first element's
stream type equals the literal `"live"` (absent type or empty list is
not-live); and the enriched variant's `Channel.is_live` holds iff its
type field equals `"live"`, with an empty data list likewise recorded
not-live there. -/
theorem c6_liveness_rule :
    (∀ (r : Response) (l : List StreamData), r.is_success = true → r.body = .obj (some l) →
      ∃ b, Main._is_stream_live r = .ok b ∧
        (b = true ↔ ∃ d, l.head? = some d ∧ d.type = some "live")) ∧
    (∀ ch : TA.Channel, TA.Channel.is_live ch = true ↔ ch.type = "live") ∧
    (∀ r : Response, r.is_success = true → r.body = .obj (some []) →
      TA.channelStateOf r = false) := by
  refine ⟨?_, ?_, ?_⟩
  · rintro ⟨s, b⟩ l hs hb
    simp only at hs hb
    subst hs hb
    cases l with
    | nil =>
      refine ⟨false, by simp [Main._is_stream_live], by simp⟩
    | cons d t =>
      refine ⟨d.type == some "live", by simp [Main._is_stream_live], ?_⟩
      simp [beq_iff_eq]
  · intro ch
    simp [TA.Channel.is_live, beq_iff_eq]
  · rintro ⟨s, b⟩ hs hb
    simp only at hs hb
    subst hs hb
    simp [TA.channelStateOf, TA._get_channel]

/-- C6 witness: a live first element yields live; `Channel.is_live`
agrees with the type field. -/
theorem c6_liveness_rule_witness :
    (∃ b, Main._is_stream_live liveResponse = .ok b ∧
      (b = true ↔ ∃ d, ([liveStreamData] : List StreamData).head? = some d ∧
        d.type = some "live")) ∧
    (TA.Channel.is_live chanLive = true ↔ chanLive.type = "live") ∧
    TA.channelStateOf offlineResponse = false :=
  ⟨c6_liveness_rule.1 liveResponse [liveStreamData] rfl rfl,
   c6_liveness_rule.2.1 _,
   c6_liveness_rule.2.2 offlineResponse rfl rfl⟩

/-- C8: a credential is valid (not expired) iff the current time is
strictly below `expires_at`; the scan step returns a present valid
credential unchanged with zero token-exchange calls, and performs the
exchange exactly when the credential is absent or expired. -/
theorem c8_credential_validity :
    (∀ (a : Auth) (now : Int), Auth.expired a now = false ↔ now < a.expires_at) ∧
    (∀ (a : Auth) (now : Int) (tr : TokenResponse) (cid : String),
      Auth.expired a now = false → Main.ensureAuth (some a) tr now cid = (some a, 0)) ∧
    (∀ (now : Int) (tr : TokenResponse) (cid : String),
      (Main.ensureAuth none tr now cid).2 = 1) ∧
    (∀ (a : Auth) (now : Int) (tr : TokenResponse) (cid : String),
      Auth.expired a now = true → (Main.ensureAuth (some a) tr now cid).2 = 1) := by
  refine ⟨?_, ?_, ?_, ?_⟩
  · intro a now
    simp [Auth.expired]
  · intro a now tr cid h
    simp [Main.ensureAuth, h]
  · intro now tr cid
    simp [Main.ensureAuth]
  · intro a now tr cid h
    simp [Main.ensureAuth, h]

/-- C8 witness: a cached unexpired credential is reused without a token
call; an absent or expired one triggers exactly one exchange. -/
theorem c8_credential_validity_witness :
    (Auth.expired ⟨"tok", 100, "id"⟩ 50 = false ↔ (50 : Int) < 100) ∧
    Main.ensureAuth (some ⟨"tok", 100, "id"⟩) tokenOk 50 "id" = (some ⟨"tok", 100, "id"⟩, 0) ∧
    (Main.ensureAuth none tokenOk 50 "id").2 = 1 ∧
    (Main.ensureAuth (some ⟨"tok", 100, "id"⟩) tokenOk 200 "id").2 = 1 :=
  ⟨c8_credential_validity.1 _ _,
   c8_credential_validity.2.1 _ _ _ _ (by decide),
   c8_credential_validity.2.2.1 _ _ _,
   c8_credential_validity.2.2.2 _ _ _ _ (by decide)⟩

/-- C10: every `Channel` in the list returned by the enriched
`isolate_who_went_live` has `is_live = true`. -/
theorem c10_returned_channels_live (fs : FS) (probe : String → Response) (state_file : String)
    (channels : List String) (res : List TA.Channel) (fs2 : FS)
    (h : TA.isolate_who_went_live fs probe state_file channels = .ok (res, fs2)) :
    ∀ ch ∈ res, TA.Channel.is_live ch = true := by
  rw [TA.isolate_who_went_live] at h
  cases hl : _load_state fs state_file with
  | error e =>
    simp only [hl] at h
    exact absurd h (by simp)
  | ok prev =>
    simp only [hl, Except.ok.injEq, Prod.mk.injEq] at h
    obtain ⟨hres, -⟩ := h
    intro ch hch
    rw [← hres] at hch
    simp only [List.mem_map] at hch
    obtain ⟨p, hp, hpe⟩ := hch
    rw [← hpe]
    exact TA.probeLoop_snd_live probe channels [] [] (by simp) p (List.mem_of_mem_filter hp)

/-- C10 witness: a cycle returning the live channel `alpha`. -/
theorem c10_returned_channels_live_witness :
    ∃ fs2, TA.isolate_who_went_live fsEmpty (fun _ => liveResponse) STATE_FILE ["alpha"] =
      .ok ([chanLive], fs2) ∧
    TA.Channel.is_live chanLive = true := by
  have h := TA.isolate_eq_ta fsEmpty (fun _ => liveResponse) STATE_FILE ["alpha"] [] rfl
    (by decide)
  rw [show ((TA.probeLoop (fun _ => liveResponse) ["alpha"] [] []).2.filter
        (fun p => decide (p.1 ∈ _isolate_newly_active []
          (["alpha"].map fun c => (c, TA.channelStateOf (liveResponse)))))).map Prod.snd =
      [chanLive] from by decide] at h
  exact ⟨_, h, c10_returned_channels_live fsEmpty (fun _ => liveResponse) STATE_FILE ["alpha"]
    [chanLive] _ h chanLive (List.mem_singleton_self _)⟩

/-- C2 counterexample: in the boolean variant, a successful probe
response whose body lacks the `data` list raises an uncaught `KeyError`:
the cycle aborts before `_save_state`, so the persisted snapshot still
records the failed channel as `true` instead of `false`. -/
theorem c2_counterexample :
    Main.isolate_who_went_live fsAlphaTrue (fun _ => malformedOkResponse) STATE_FILE ["alpha"] =
      .error .keyError ∧
    _load_state fsAlphaTrue STATE_FILE = .ok [("alpha", true)] := by
  constructor
  · rfl
  · decide

/-- C2 amended: in the enriched variant every probe failure (error
response, malformed body, missing fields, empty data) is caught and the
channel recorded `false`, the saved snapshot holding exactly one entry
per queried channel in order, `true` only for a channel whose probe
returned a well-formed live response.  The boolean variant satisfies the
same invariant whenever every probe response is well formed; error
responses and empty data lists are recorded `false` there as well, but a
successful malformed body aborts the cycle (see the counterexample). -/
theorem c2_amended :
    (∀ (fs : FS) (probe : String → Response) (sf : String) (channels : List String)
        (prev : Snapshot) (res : List TA.Channel) (fs2 : FS),
      _load_state fs sf = .ok prev → channels.Nodup →
      TA.isolate_who_went_live fs probe sf channels = .ok (res, fs2) →
      _load_state fs2 sf = .ok (channels.map fun c => (c, TA.channelStateOf (probe c)))) ∧
    (∀ r : Response, (TA._get_channel r).isOk = false → TA.channelStateOf r = false) ∧
    (∀ r : Response, TA.channelStateOf r = true →
      ∃ ch, TA._get_channel r = .ok ch ∧ TA.Channel.is_live ch = true) ∧
    (∀ (fs : FS) (probe : String → Response) (sf : String) (channels : List String)
        (prev : Snapshot),
      _load_state fs sf = .ok prev → channels.Nodup →
      (∀ c ∈ channels, (Main._is_stream_live (probe c)).isOk = true) →
      Main.isolate_who_went_live fs probe sf channels =
        .ok (_isolate_newly_active prev (channels.map fun c => (c, Main.stateOf (probe c))),
             _save_state (channels.map fun c => (c, Main.stateOf (probe c))) fs sf)) ∧
    (∀ r : Response, r.is_success = false → Main._is_stream_live r = .ok false) ∧
    (∀ r : Response, r.is_success = true → r.body = .obj (some []) →
      Main._is_stream_live r = .ok false) := by
  refine ⟨?_, ?_, ?_, ?_, ?_, ?_⟩
  · intro fs probe sf channels prev res fs2 hload hnd h
    rw [TA.isolate_eq_ta fs probe sf channels prev hload hnd] at h
    simp only [Except.ok.injEq, Prod.mk.injEq] at h
    rw [← h.2]
    exact load_after_save _ fs sf
  · intro r h
    rw [TA.channelStateOf]
    cases hg : TA._get_channel r with
    | error e => rfl
    | ok ch =>
      rw [hg] at h
      simp [Except.isOk, Except.toBool] at h
  · intro r h
    rw [TA.channelStateOf] at h
    cases hg : TA._get_channel r with
    | error e =>
      rw [hg] at h
      exact absurd h (by simp)
    | ok ch =>
      rw [hg] at h
      exact ⟨ch, rfl, h⟩
  · intro fs probe sf channels prev hload hnd hok
    exact Main.isolate_eq_main fs probe sf channels prev hload hok hnd
  · intro r h
    simp [Main._is_stream_live, h]
  · rintro ⟨s, b⟩ hs hb
    simp only at hs hb
    subst hs hb
    simp [Main._is_stream_live]

/-- C2 witness: one failed probe is persisted as `false` in the enriched
variant; the boolean variant persists well-formed cycles the same way;
an error response is recorded not-live. -/
theorem c2_amended_witness :
    _load_state (_save_state [("alpha", false)] fsEmpty STATE_FILE) STATE_FILE =
      .ok [("alpha", TA.channelStateOf errorResponse)] ∧
    Main.isolate_who_went_live fsEmpty (fun _ => liveResponse) STATE_FILE ["alpha"] =
      .ok (_isolate_newly_active []
             (["alpha"].map fun c => (c, Main.stateOf liveResponse)),
           _save_state (["alpha"].map fun c => (c, Main.stateOf liveResponse)) fsEmpty
             STATE_FILE) ∧
    Main._is_stream_live errorResponse = .ok false :=
  ⟨c2_amended.1 fsEmpty (fun _ => errorResponse) STATE_FILE ["alpha"] [] []
     (_save_state [("alpha", false)] fsEmpty STATE_FILE) rfl (by decide) rfl,
   c2_amended.2.2.2.1 fsEmpty (fun _ => liveResponse) STATE_FILE ["alpha"] [] rfl (by decide)
     (fun c _ => rfl),
   c2_amended.2.2.2.2.1 errorResponse rfl⟩

/-- C3 counterexample: with a failing credential exchange the scheduler
terminates via `raise SystemExit()` — which carries no code, so the
process exit status is 0, not non-zero, in continuous and single-shot
mode alike. -/
theorem c3_counterexample :
    envAuthFail.tokenResp.is_success = false ∧
    Main._run cfg0 envAuthFail true 5 =
      .sysExit none { auth := none, next_scan_at := 0, new_channels := ∅,
                      fs := envAuthFail.fs0, trace := [], iter := 0 } ∧
    (Main._run cfg0 envAuthFail true 5).exitCode = some 0 ∧
    (Main._run cfg0 envAuthFail false 1).exitCode = some 0 := by
  have h1 := Main.run_auth_fail cfg0 envAuthFail true 4 rfl (by decide)
  have h2 := Main.run_auth_fail cfg0 envAuthFail false 0 rfl (by decide)
  refine ⟨rfl, h1, ?_, ?_⟩
  · rw [h1]
    rfl
  · rw [h2]
    rfl

/-- C3 amended: when credential acquisition fails the scheduler raises
`SystemExit` and the process terminates in both modes — but with exit
code 0 (`SystemExit` carries no code), the same status as a graceful
single-shot completion, not a non-zero one. -/
theorem c3_amended :
    (∀ (cfg : Config) (env : Main.RunEnv) (loop_flag : Bool) (fuel : Nat),
      env.tokenResp.is_success = false → env.now 0 > 0 →
      Main._run cfg env loop_flag (fuel + 1) =
        .sysExit none { auth := none, next_scan_at := 0, new_channels := ∅, fs := env.fs0,
                        trace := [], iter := 0 } ∧
      (Main._run cfg env loop_flag (fuel + 1)).exitCode = some 0) ∧
    (∀ (cfg : Config) (env : Main.RunEnv) (prev : Snapshot),
      env.now 0 > 0 → env.tokenResp.is_success = true →
      (∀ c, (Main._is_stream_live (env.probe c)).isOk = true) →
      _load_state env.fs0 STATE_FILE = .ok prev →
      (Main._run cfg env false 1).exitCode = some 0) := by
  constructor
  · intro cfg env loop_flag fuel htok hnow
    have h := Main.run_auth_fail cfg env loop_flag fuel htok hnow
    exact ⟨h, by rw [h]; rfl⟩
  · intro cfg env prev hnow htok hok hload
    rw [Main.run_once_good cfg env prev hnow htok hok hload]
    by_cases hna : _isolate_newly_active prev
        ((sortedChannels cfg).map fun c => (c, Main.stateOf (env.probe c))) = ∅ <;>
      simp [hna, Main.RunResult.exitCode]

/-- C3 witness: the auth-failing environment exits with code 0 in both
modes; the healthy environment completes its single shot with code 0. -/
theorem c3_amended_witness :
    (Main._run cfg0 envAuthFail true 3 =
      .sysExit none { auth := none, next_scan_at := 0, new_channels := ∅,
                      fs := envAuthFail.fs0, trace := [], iter := 0 } ∧
     (Main._run cfg0 envAuthFail true 3).exitCode = some 0) ∧
    (Main._run cfg0 envGood false 1).exitCode = some 0 :=
  ⟨c3_amended.1 cfg0 envAuthFail true 2 rfl (by decide),
   c3_amended.2 cfg0 envGood [] (by decide) rfl (fun c => rfl) rfl⟩

/-- C7: a sink with an empty webhook URL or empty integration key
performs zero outbound requests (a logged skip, not an error); and in a
cycle with newly live channels, whatever either sink's response is —
including a delivery failure — the run does not terminate, the snapshot
is still saved, and both sinks are invoked, each with its own configured
target and its own response. -/
theorem c7_sink_isolation :
    (∀ (chans : List String) (resp : SinkResponse),
      send_discord_webhook chans "" resp = { requests := 0, event := .skippedNoTarget }) ∧
    (∀ (chans : List String) (resp : SinkResponse),
      send_pagerduty_alert chans "" resp = { requests := 0, event := .skippedNoTarget }) ∧
    (∀ (cfg : Config) (env : Main.RunEnv) (prev : Snapshot),
      env.now 0 > 0 → env.tokenResp.is_success = true →
      (∀ c, (Main._is_stream_live (env.probe c)).isOk = true) →
      _load_state env.fs0 STATE_FILE = .ok prev →
      _isolate_newly_active prev
          ((sortedChannels cfg).map fun c => (c, Main.stateOf (env.probe c))) ≠ ∅ →
      ∃ s, Main._run cfg env false 1 = .finished s ∧
        _load_state s.fs STATE_FILE =
          .ok ((sortedChannels cfg).map fun c => (c, Main.stateOf (env.probe c))) ∧
        s.trace =
          [(send_discord_webhook
              ((_isolate_newly_active prev
                ((sortedChannels cfg).map fun c => (c, Main.stateOf (env.probe c)))).sort (· ≤ ·))
              cfg.discord_webhook_url env.discordResp,
            send_pagerduty_alert
              ((_isolate_newly_active prev
                ((sortedChannels cfg).map fun c => (c, Main.stateOf (env.probe c)))).sort (· ≤ ·))
              cfg.pagerduty_key env.pdResp)]) := by
  refine ⟨fun chans resp => rfl, fun chans resp => rfl, ?_⟩
  intro cfg env prev hnow htok hok hload hne
  have hrun := Main.run_once_good cfg env prev hnow htok hok hload
  simp only [if_neg hne] at hrun
  exact ⟨_, hrun, load_after_save _ env.fs0 STATE_FILE, rfl⟩

/-- C7 witness: with channel `alpha` newly live, a failing chat sink and
a working paging sink are both attempted, the snapshot is saved, and the
run completes. -/
theorem c7_sink_isolation_witness :
    send_discord_webhook ["alpha"] "" sinkOk = { requests := 0, event := .skippedNoTarget } ∧
    send_pagerduty_alert ["alpha"] "" sinkFail500 =
      { requests := 0, event := .skippedNoTarget } ∧
    ∃ s, Main._run cfg0 envGood false 1 = .finished s ∧
      _load_state s.fs STATE_FILE =
        .ok ((sortedChannels cfg0).map fun c => (c, Main.stateOf (envGood.probe c))) ∧
      s.trace =
        [(send_discord_webhook
            ((_isolate_newly_active []
              ((sortedChannels cfg0).map fun c => (c, Main.stateOf (envGood.probe c)))).sort
                (· ≤ ·))
            cfg0.discord_webhook_url envGood.discordResp,
          send_pagerduty_alert
            ((_isolate_newly_active []
              ((sortedChannels cfg0).map fun c => (c, Main.stateOf (envGood.probe c)))).sort
                (· ≤ ·))
            cfg0.pagerduty_key envGood.pdResp)] :=
  by
  have hsort : sortedChannels cfg0 = ["alpha"] := by
    rw [sortedChannels]
    exact Finset.sort_singleton _ _
  have hmem : "alpha" ∈ _isolate_newly_active []
      ((sortedChannels cfg0).map fun c => (c, Main.stateOf (envGood.probe c))) := by
    rw [mem_isolate_newly_active, hsort]
    refine ⟨?_, rfl⟩
    simp only [List.map_cons, List.map_nil, List.mem_singleton]
    rfl
  exact ⟨c7_sink_isolation.1 ["alpha"] sinkOk,
    c7_sink_isolation.2.1 ["alpha"] sinkFail500,
    c7_sink_isolation.2.2 cfg0 envGood [] (by decide) rfl (fun c => rfl) rfl
      (Finset.ne_empty_of_mem hmem)⟩

end TwitchAlerts
